import Mathlib

/-
Verification of the DerivaLogic application against its specification.

The persistent state of the application lives in two backend tables,
`scripts` and `events`; the hooks in `src/hooks` and the page components
issue row-level insert/update/delete/select calls against them, always
filtered by the authenticated user's id.  We embed the tables as lists of
rows and each mutation's `mutationFn` as a function on that state.

Numeric design notes (the `fIf` smoothing primitive and the Hull-White +
GBM Monte-Carlo agent) are embedded over a linear ordered field / the
real numbers.
-/

namespace DerivaLogic

/-- A row of the `scripts` table: `id`, `user_id`, `name`,
`reference_date` (ISO-8601 timestamp string), `status`
(`"DRAFT"` or `"SAVED"`). -/
structure ScriptRow where
  id : String
  user_id : String
  name : String
  reference_date : String
  status : String
deriving DecidableEq

/-- A row of the `events` table: `id`, `script_id`, `user_id`, `name`,
`description`, `event_date` (timestamp, embedded as its time value so
that the backend's chronological ordering is the numeric order),
`script_content`. -/
structure EventRow where
  id : String
  script_id : String
  user_id : String
  name : String
  description : String
  event_date : Nat
  script_content : String
deriving DecidableEq

/-- The backend storage state visible to the application: the `scripts`
and `events` tables. -/
structure DB where
  scripts : List ScriptRow
  events : List EventRow
deriving DecidableEq

/-- Core of `deleteDraftScriptMutation` (useScriptMutations.tsx) and
`deleteDraftMutation` (useDraftDeletion.tsx), whose `mutationFn` bodies
are identical: first an unconditional delete of every `events` row with
`script_id = scriptId` and `user_id = uid`, then a delete of the
`scripts` row filtered by `id = scriptId`, `user_id = uid` and
`status = 'DRAFT'`. -/
def deleteDraftFn (db : DB) (uid scriptId : String) : DB :=
  let events' := db.events.filter
    (fun e => !(e.script_id == scriptId && e.user_id == uid))
  let scripts' := db.scripts.filter
    (fun s => !(s.id == scriptId && s.user_id == uid && s.status == "DRAFT"))
  { scripts := scripts', events := events' }

/-- The `mutationFn` of the draft-deletion mutations including the
authentication guard: it throws `User not authenticated` when there is
no user id and otherwise performs `deleteDraftFn` and resolves
successfully. -/
def deleteDraftMutationFn (user : Option String) (db : DB) (scriptId : String) :
    Except String DB :=
  match user with
  | none => Except.error "User not authenticated"
  | some uid => Except.ok (deleteDraftFn db uid scriptId)

/-- The row inserted by `createScriptMutation` (useScriptMutations.tsx):
`name: 'New Script*'`, `reference_date: new Date().toISOString()`,
`status: 'DRAFT'`, `user_id: user.id`; the backend assigns the fresh id
`nid`. -/
def newScriptRow (uid nid now : String) : ScriptRow :=
  { id := nid, user_id := uid, name := "New Script*",
    reference_date := now, status := "DRAFT" }

/-- Effect of `createScriptMutation` on the `scripts` table: the new row
is appended. -/
def createScript (db : DB) (uid nid now : String) : DB :=
  { db with scripts := db.scripts ++ [newScriptRow uid nid now] }

/-- Per-row effect of `saveScriptMutation` (useScriptMutations.tsx): the
update `{ name: scriptName, status: 'SAVED' }` applies to the rows
matching `id = scriptId` and `user_id = uid` and leaves every other row
unchanged. -/
def saveScriptRow (uid scriptId nm : String) (s : ScriptRow) : ScriptRow :=
  if s.id == scriptId && s.user_id == uid then
    { s with name := nm, status := "SAVED" }
  else s

/-- Effect of `saveScriptMutation` on the `scripts` table. -/
def saveScript (db : DB) (uid scriptId nm : String) : DB :=
  { db with scripts := db.scripts.map (saveScriptRow uid scriptId nm) }

/-- The event shape returned to the UI by `useEventsQuery`
(`{ id, eventDate, script, name, description }`). -/
structure UIEvent where
  id : String
  eventDate : Nat
  script : String
  name : String
  description : String
deriving DecidableEq

/-- The row-to-UI mapping applied by `useEventsQuery` to each fetched
row. -/
def toUIEvent (e : EventRow) : UIEvent :=
  { id := e.id, eventDate := e.event_date, script := e.script_content,
    name := e.name, description := e.description }

/-- Comparison used to embed `.order('event_date', ascending true)`:
the backend returns the selected rows sorted by the timestamp value of
`event_date`. -/
def eventDateLe (a b : EventRow) : Prop :=
  a.event_date ≤ b.event_date

instance : DecidableRel eventDateLe :=
  fun a b => Nat.decLe a.event_date b.event_date

instance : IsTotal EventRow eventDateLe :=
  ⟨fun a b => Nat.le_total a.event_date b.event_date⟩

instance : IsTrans EventRow eventDateLe :=
  ⟨fun _ _ _ h1 h2 => Nat.le_trans h1 h2⟩

/-- `useEventsQuery`: select the `events` rows with
`script_id = scriptId` and `user_id = uid`, ordered by `event_date`
ascending, mapped to the UI event shape. -/
def listEvents (db : DB) (uid scriptId : String) : List UIEvent :=
  ((db.events.filter
      (fun e => e.script_id == scriptId && e.user_id == uid)).insertionSort
    eventDateLe).map toUIEvent

/-- The partial update object passed to `updateEventMutation`: each
field is present (`some`) or absent (`none`). -/
structure EventUpdates where
  name : Option String
  description : Option String
  eventDate : Option Nat
  script : Option String
deriving DecidableEq

/-- Per-row effect of `updateEventMutation`'s PATCH body.  The hook
builds `{ name: updates.name, description: updates.description,
event_date: updates.eventDate?.toISOString(), script_content:
updates.script }`; the client library serializes this object to JSON,
which drops the fields whose value is `undefined`, and the backend
leaves the corresponding columns unchanged — embedded by
`Option.getD`. -/
def applyEventUpdates (u : EventUpdates) (e : EventRow) : EventRow :=
  { e with
    name := u.name.getD e.name,
    description := u.description.getD e.description,
    event_date := u.eventDate.getD e.event_date,
    script_content := u.script.getD e.script_content }

/-- Effect of `updateEventMutation` on the `events` table: the update
applies to rows matching `id = eventId` and `user_id = uid`. -/
def updateEvent (db : DB) (uid eventId : String) (u : EventUpdates) : DB :=
  let apply1 := fun (e : EventRow) =>
    if e.id == eventId && e.user_id == uid then applyEventUpdates u e else e
  { db with events := db.events.map apply1 }

/-- `handleScriptChange` (useEventsHandlers): returns without mutating
when `isModifyMode` is false, otherwise updates only the script text. -/
def handleScriptChange (isModifyMode : Bool) (db : DB)
    (uid eventId value : String) : DB :=
  if isModifyMode then
    updateEvent db uid eventId
      { name := none, description := none, eventDate := none,
        script := some value }
  else db

/-- `handleDateChange` (useEventsHandlers): returns without mutating
when `isModifyMode` is false or the value is absent, otherwise updates
only the event date. -/
def handleDateChange (isModifyMode : Bool) (db : DB)
    (uid eventId : String) (value : Option Nat) : DB :=
  match isModifyMode, value with
  | true, some d =>
      updateEvent db uid eventId
        { name := none, description := none, eventDate := some d,
          script := none }
  | _, _ => db

/-- `handleNameChange` (useEventsHandlers): returns without mutating
when `isModifyMode` is false, otherwise updates only the name. -/
def handleNameChange (isModifyMode : Bool) (db : DB)
    (uid eventId nm : String) : DB :=
  if isModifyMode then
    updateEvent db uid eventId
      { name := some nm, description := none, eventDate := none,
        script := none }
  else db

/-- `handleDescriptionChange` (useEventsHandlers): returns without
mutating when `isModifyMode` is false, otherwise updates only the
description. -/
def handleDescriptionChange (isModifyMode : Bool) (db : DB)
    (uid eventId ds : String) : DB :=
  if isModifyMode then
    updateEvent db uid eventId
      { name := none, description := some ds, eventDate := none,
        script := none }
  else db

/-- The response seen by `fetchSpotRate`: the HTTP status of the
`spot_rates` request and, since the request selects only the `rate`
field, the list of returned rates. -/
structure SpotRateResponse where
  status : Nat
  rows : List ℚ
deriving DecidableEq

/-- `Response.ok` of the fetch API: the status is in the range
200-299. -/
def respOk (status : Nat) : Bool :=
  200 ≤ status && status < 300

/-- The error message thrown by `fetchSpotRate` on a non-2xx
response. -/
def spotRateErrorMsg (status : Nat) : String :=
  "failed to fetch spot rate: " ++ toString status

/-- `fetchSpotRate`: throws the status-naming error when the response
is not ok, otherwise resolves with `data?.[0]?.rate ?? 0`, i.e. the
first row's rate or 0 when the array is empty. -/
def fetchSpotRate (resp : SpotRateResponse) : Except String ℚ :=
  if respOk resp.status then Except.ok (resp.rows.headD 0)
  else Except.error (spotRateErrorMsg resp.status)

/-- The regex test `/[A-Z]/` of `validatePassword` on one character. -/
def isUpperAZ (c : Char) : Bool :=
  'A' ≤ c && c ≤ 'Z'

/-- The regex test `/[a-z]/` of `validatePassword` on one character. -/
def isLowerAZ (c : Char) : Bool :=
  'a' ≤ c && c ≤ 'z'

/-- The regex test `/\d/` of `validatePassword` on one character. -/
def isDigit09 (c : Char) : Bool :=
  '0' ≤ c && c ≤ '9'

/-- The fixed special-character class of `validatePassword`. -/
def specialChars : List Char :=
  ['!', '@', '#', '$', '%', '^', '&', '*', '(', ')', ',', '.', '?',
   '\"', ':', '\x7b', '\x7d', '|', '<', '>']

/-- The regex test of the special-character class on one character. -/
def isSpecialChar (c : Char) : Bool :=
  specialChars.contains c

/-- `validatePassword` (Auth.tsx): checks, in order, minimum length 8,
an uppercase letter, a lowercase letter, a digit, and a special
character, returning false at the first failing check. -/
def validatePassword (p : String) : Bool :=
  if p.length < 8 then false
  else if !(p.data.any isUpperAZ) then false
  else if !(p.data.any isLowerAZ) then false
  else if !(p.data.any isDigit09) then false
  else if !(p.data.any isSpecialChar) then false
  else true

/-- `handleScriptNameChange` (EventsHeader): the entered value is
limited to 60 characters by `value.slice(0, 60)` and the result is
tracked as the script name. -/
def headerScriptNameChange (value : String) : String :=
  ⟨value.data.take 60⟩

/-- The CSS classes of the character counter element in
`EventsHeader`; `text-red-500` is the red warning styling. -/
def counterClass : String :=
  "text-xs text-red-500 font-medium"

/-- The character counter rendered by `EventsHeader` below the script
name: present exactly when the tracked name has length at least 60 and
the page is in modify mode; its text is the length followed by
`/60 characters`, styled with `counterClass`. -/
def headerCounter (scriptName : String) (isModifyMode : Bool) :
    Option (String × String) :=
  if 60 ≤ scriptName.length && isModifyMode then
    some (toString scriptName.length ++ "/60 characters", counterClass)
  else none

/-- Parameters of `HullWhiteGBMAgent`: mean reversion `a`, rate
volatility `sigma_r`, asset volatility `sigma_s`, correlation `rho`,
deterministic drift `theta`, and initial values `r0`, `s0`. -/
structure HWParams where
  a : ℝ
  sigma_r : ℝ
  sigma_s : ℝ
  rho : ℝ
  theta : ℝ → ℝ
  r0 : ℝ
  s0 : ℝ

/-- Per-path simulation state of `simulate_paths`: the short rate `r`,
the asset price `s`, and the accumulated discount factor. -/
@[ext]
structure HWState where
  r : ℝ
  s : ℝ
  discount : ℝ

/-- First correlated draw of a step: the agent applies the Cholesky
factor `[[1, 0], [rho, sqrt(1 - rho^2)]]` to the raw standard-normal
draws, so `Z1` is the first raw draw. -/
def hwZ1 (W1 : ℕ → ℝ) (k : ℕ) : ℝ :=
  W1 k

/-- Second correlated draw of a step:
`Z3 = rho * W1 + sqrt(1 - rho^2) * W2`. -/
noncomputable def hwZ3 (p : HWParams) (W1 W2 : ℕ → ℝ) (k : ℕ) : ℝ :=
  p.rho * W1 k + Real.sqrt (1 - p.rho ^ 2) * W2 k

/-- One loop iteration of `simulate_paths`, with `tk1` the grid time
`t[k+1]` and `h` the step length `t[k+1] - t[k]`: the exact Hull-White
rate step, the integrated rate `I` accumulated into the discount
factor via `exp(-I)`, and the log-Euler asset step. -/
noncomputable def hwStep (p : HWParams) (tk1 h Z1 Z3 : ℝ) (st : HWState) :
    HWState :=
  let exp_ah := Real.exp (-p.a * h)
  let m := p.theta tk1 - p.sigma_r ^ 2 / (2 * p.a ^ 2) * (1 - exp_ah) ^ 2
  let r' := st.r * exp_ah + m * (1 - exp_ah)
    + p.sigma_r * Real.sqrt ((1 - exp_ah ^ 2) / (2 * p.a)) * Z1
  let I := (1 - exp_ah) / p.a * st.r + (h - (1 - exp_ah) / p.a) * m
    + p.sigma_r * Real.sqrt ((1 - exp_ah ^ 2) / p.a ^ 2) * Z1
  let s' := st.s * Real.exp ((st.r - p.sigma_s ^ 2 / 2) * h
    + p.sigma_s * Real.sqrt h * Z3)
  { r := r', s := s', discount := st.discount * Real.exp (-I) }

/-- The per-path state of `simulate_paths` at grid index `k`, for time
grid `tg` and raw normal draws `W1`, `W2` (one pair per step): the
state is initialised at `(r0, s0)` with discount factor 1 and advanced
one `hwStep` per grid interval. -/
noncomputable def hwState (p : HWParams) (tg W1 W2 : ℕ → ℝ) : ℕ → HWState
  | 0 => { r := p.r0, s := p.s0, discount := 1 }
  | k + 1 =>
    hwStep p (tg (k + 1)) (tg (k + 1) - tg k)
      (hwZ1 W1 k) (hwZ3 p W1 W2 k) (hwState p tg W1 W2 k)

/-- The zero-volatility, zero-correlation, constant-drift
configuration of the simulator used by the convergence property:
`sigma_r = sigma_s = 0`, `rho = 0`, `theta(t) = r0`. -/
def hwFlatParams (a r0 s0 : ℝ) : HWParams :=
  { a := a, sigma_r := 0, sigma_s := 0, rho := 0,
    theta := fun _ => r0, r0 := r0, s0 := s0 }

/-- The functional-if smoothing primitive of the fuzzy-logic design
note: `fIf(x, a, b, eps) = b + (a - b)/eps * max(0, min(eps, x +
eps/2))`, stated over any linear ordered field. -/
def fIf {α : Type _} [LinearOrderedField α] (x a b eps : α) : α :=
  b + (a - b) / eps * max 0 (min eps (x + eps / 2))

lemma deleteDraft_event_removed (db : DB) (uid sid : String) (e : EventRow)
    (h1 : e.script_id = sid) (h2 : e.user_id = uid) :
    e ∉ (deleteDraftFn db uid sid).events := by
  simp [deleteDraftFn, List.mem_filter, h1, h2]

lemma deleteDraft_event_kept (db : DB) (uid sid : String) (e : EventRow)
    (he : e ∈ db.events) (h : ¬(e.script_id = sid ∧ e.user_id = uid)) :
    e ∈ (deleteDraftFn db uid sid).events := by
  simp only [deleteDraftFn, List.mem_filter]
  refine ⟨he, ?_⟩
  simp only [Bool.not_eq_true', Bool.and_eq_false_iff, beq_eq_false_iff_ne,
    ne_eq]
  tauto

lemma deleteDraft_saved_kept (db : DB) (uid sid : String) (s : ScriptRow)
    (hs : s ∈ db.scripts) (hst : s.status = "SAVED") :
    s ∈ (deleteDraftFn db uid sid).scripts := by
  simp only [deleteDraftFn, List.mem_filter]
  refine ⟨hs, ?_⟩
  simp [hst]

lemma deleteDraft_draft_removed (db : DB) (uid sid : String) (s : ScriptRow)
    (h1 : s.id = sid) (h2 : s.user_id = uid) (h3 : s.status = "DRAFT") :
    s ∉ (deleteDraftFn db uid sid).scripts := by
  simp [deleteDraftFn, List.mem_filter, h1, h2, h3]

lemma deleteDraft_script_kept (db : DB) (uid sid : String) (s : ScriptRow)
    (hs : s ∈ db.scripts)
    (h : ¬(s.id = sid ∧ s.user_id = uid ∧ s.status = "DRAFT")) :
    s ∈ (deleteDraftFn db uid sid).scripts := by
  simp only [deleteDraftFn, List.mem_filter]
  refine ⟨hs, ?_⟩
  simp only [Bool.not_eq_true', Bool.and_eq_false_iff, beq_eq_false_iff_ne,
    ne_eq]
  tauto

lemma saveScript_mem_spec (db : DB) (uid sid nm : String) (s : ScriptRow)
    (hs : s ∈ (saveScript db uid sid nm).scripts)
    (h1 : s.id = sid) (h2 : s.user_id = uid) :
    s.name = nm ∧ s.status = "SAVED" := by
  rcases List.mem_map.1 hs with ⟨t, ht, rfl⟩
  by_cases h : (t.id == sid && t.user_id == uid) = true
  · simp [saveScriptRow, h]
  · rw [saveScriptRow, if_neg h] at h1 h2 ⊢
    exact absurd (by simp [h1, h2]) h

/-- The storage state of the C1 counterexample: one script with status
`SAVED` owning one event. -/
def cexScript : ScriptRow :=
  { id := "s1", user_id := "u1", name := "Q3 Swap",
    reference_date := "2025-01-01T00:00:00Z", status := "SAVED" }

def cexEvent : EventRow :=
  { id := "e1", script_id := "s1", user_id := "u1", name := "Event 1",
    description := "", event_date := 20250101, script_content := "" }

def cexDB : DB :=
  { scripts := [cexScript], events := [cexEvent] }

/-- C1 counterexample: the claim says that for a stored script with
status `SAVED` the draft-deletion operation removes zero rows; but on
a storage state holding one SAVED script with one event, the operation
removes the event row (the events delete is not conditioned on the
script's status). -/
theorem deleteDraft_saved_removes_rows_cex :
    cexScript.status = "SAVED" ∧ cexScript ∈ cexDB.scripts ∧
    cexEvent ∈ cexDB.events ∧ cexEvent.script_id = cexScript.id ∧
    cexEvent ∉ (deleteDraftFn cexDB "u1" cexScript.id).events := by
  decide

/-- C1 (amended): for every script with status `DRAFT`, the
draft-deletion operation removes exactly that script row and all event
rows referencing it; for every script with status `SAVED` it removes
zero script rows, but it still removes every event row referencing the
script, because the events delete is unconditional. -/
theorem deleteDraft_guard_amended (db : DB) (uid sid : String) :
    (∀ e ∈ db.events, e.script_id = sid → e.user_id = uid →
      e ∉ (deleteDraftFn db uid sid).events) ∧
    (∀ e ∈ db.events, ¬(e.script_id = sid ∧ e.user_id = uid) →
      e ∈ (deleteDraftFn db uid sid).events) ∧
    (∀ s ∈ db.scripts, s.status = "SAVED" →
      s ∈ (deleteDraftFn db uid sid).scripts) ∧
    (∀ s ∈ db.scripts, s.id = sid → s.user_id = uid → s.status = "DRAFT" →
      s ∉ (deleteDraftFn db uid sid).scripts) ∧
    (∀ s ∈ db.scripts, ¬(s.id = sid ∧ s.user_id = uid ∧ s.status = "DRAFT") →
      s ∈ (deleteDraftFn db uid sid).scripts) := by
  refine ⟨?_, ?_, ?_, ?_, ?_⟩
  · exact fun e _ h1 h2 => deleteDraft_event_removed db uid sid e h1 h2
  · exact fun e he h => deleteDraft_event_kept db uid sid e he h
  · exact fun s hs hst => deleteDraft_saved_kept db uid sid s hs hst
  · exact fun s _ h1 h2 h3 => deleteDraft_draft_removed db uid sid s h1 h2 h3
  · exact fun s hs h => deleteDraft_script_kept db uid sid s hs h

theorem deleteDraft_guard_amended_witness :
    (cexEvent ∈ cexDB.events ∧ cexEvent.script_id = "s1" ∧
      cexEvent.user_id = "u1") ∧
    cexEvent ∉ (deleteDraftFn cexDB "u1" "s1").events :=
  ⟨⟨by decide, by decide, by decide⟩,
    (deleteDraft_guard_amended cexDB "u1" "s1").1 cexEvent
      (by decide) (by decide) (by decide)⟩

/-- C2: the draft-deletion mutation deletes every event matching the
script's id and the caller's user id unconditionally; consequently,
when the script's status is `SAVED` the operation still deletes all of
the script's events, leaves the script row in place, and resolves as a
success. -/
theorem deleteDraft_unconditional_event_cascade (db : DB) (uid sid : String) :
    deleteDraftMutationFn (some uid) db sid
      = Except.ok (deleteDraftFn db uid sid) ∧
    (∀ e ∈ db.events, e.script_id = sid → e.user_id = uid →
      e ∉ (deleteDraftFn db uid sid).events) ∧
    (∀ s ∈ db.scripts, s.status = "SAVED" →
      s ∈ (deleteDraftFn db uid sid).scripts) := by
  refine ⟨rfl, ?_, ?_⟩
  · exact fun e _ h1 h2 => deleteDraft_event_removed db uid sid e h1 h2
  · exact fun s hs hst => deleteDraft_saved_kept db uid sid s hs hst

def w2Script : ScriptRow :=
  { id := "s2", user_id := "u2", name := "Saved one",
    reference_date := "2025-02-01T00:00:00Z", status := "SAVED" }

def w2Event : EventRow :=
  { id := "e2", script_id := "s2", user_id := "u2", name := "Event 1",
    description := "", event_date := 20250201, script_content := "" }

def w2DB : DB :=
  { scripts := [w2Script], events := [w2Event] }

theorem deleteDraft_unconditional_event_cascade_witness :
    (w2Event ∈ w2DB.events ∧ w2Event.script_id = "s2" ∧
      w2Event.user_id = "u2" ∧ w2Script ∈ w2DB.scripts ∧
      w2Script.status = "SAVED") ∧
    w2Event ∉ (deleteDraftFn w2DB "u2" "s2").events ∧
    w2Script ∈ (deleteDraftFn w2DB "u2" "s2").scripts :=
  ⟨⟨by decide, by decide, by decide, by decide, by decide⟩,
    (deleteDraft_unconditional_event_cascade w2DB "u2" "s2").2.1 w2Event
      (by decide) (by decide) (by decide),
    (deleteDraft_unconditional_event_cascade w2DB "u2" "s2").2.2 w2Script
      (by decide) (by decide)⟩

/-- C3: `createScript` inserts a script named exactly `New Script*`
with status exactly `DRAFT` and reference date set to the current
time; `saveScript` updates the script's name to the given name and
sets its status to `SAVED`; saving an already saved script leaves the
status `SAVED`. -/
theorem script_lifecycle_create_save (db : DB)
    (uid nid now sid nm nm2 : String) :
    (newScriptRow uid nid now).name = "New Script*" ∧
    (newScriptRow uid nid now).status = "DRAFT" ∧
    (newScriptRow uid nid now).reference_date = now ∧
    newScriptRow uid nid now ∈ (createScript db uid nid now).scripts ∧
    (∀ s ∈ (saveScript db uid sid nm).scripts, s.id = sid →
      s.user_id = uid → s.name = nm ∧ s.status = "SAVED") ∧
    (∀ s ∈ (saveScript (saveScript db uid sid nm) uid sid nm2).scripts,
      s.id = sid → s.user_id = uid → s.status = "SAVED") := by
  refine ⟨rfl, rfl, rfl, ?_, ?_, ?_⟩
  · simp [createScript]
  · exact fun s hs h1 h2 => saveScript_mem_spec db uid sid nm s hs h1 h2
  · exact fun s hs h1 h2 =>
      (saveScript_mem_spec (saveScript db uid sid nm) uid sid nm2 s hs h1 h2).2

def w3Draft : ScriptRow :=
  { id := "s3", user_id := "u3", name := "New Script*",
    reference_date := "2025-03-01T00:00:00Z", status := "DRAFT" }

def w3DB : DB :=
  { scripts := [w3Draft], events := [] }

theorem script_lifecycle_create_save_witness :
    (saveScriptRow "u3" "s3" "Q3 Swap" w3Draft
        ∈ (saveScript w3DB "u3" "s3" "Q3 Swap").scripts ∧
      (saveScriptRow "u3" "s3" "Q3 Swap" w3Draft).id = "s3" ∧
      (saveScriptRow "u3" "s3" "Q3 Swap" w3Draft).user_id = "u3") ∧
    (saveScriptRow "u3" "s3" "Q3 Swap" w3Draft).name = "Q3 Swap" ∧
    (saveScriptRow "u3" "s3" "Q3 Swap" w3Draft).status = "SAVED" :=
  ⟨⟨by decide, by decide, by decide⟩,
    (script_lifecycle_create_save w3DB "u3" "n" "t" "s3" "Q3 Swap" "X").2.2.2.2.1
      (saveScriptRow "u3" "s3" "Q3 Swap" w3Draft)
      (by decide) (by decide) (by decide)⟩

/-- Concrete state for the event-ordering example: one script with
three events dated 2025-03-01, 2025-01-01 and 2025-02-01 (in that
storage order). -/
def db4EventMar : EventRow :=
  { id := "a", script_id := "s4", user_id := "u4", name := "",
    description := "", event_date := 20250301, script_content := "" }

def db4EventJan : EventRow :=
  { id := "b", script_id := "s4", user_id := "u4", name := "",
    description := "", event_date := 20250101, script_content := "" }

def db4EventFeb : EventRow :=
  { id := "c", script_id := "s4", user_id := "u4", name := "",
    description := "", event_date := 20250201, script_content := "" }

def db4Script : ScriptRow :=
  { id := "s4", user_id := "u4", name := "S", reference_date := "",
    status := "SAVED" }

def db4 : DB :=
  { scripts := [db4Script],
    events := [db4EventMar, db4EventJan, db4EventFeb] }

/-- C4: `listEvents` returns the script's events (those matching the
script id and user id — a permutation of the selected rows) sorted in
ascending order of event date; in particular, for three events dated
2025-03-01, 2025-01-01, 2025-02-01 the returned dates are 2025-01-01,
2025-02-01, 2025-03-01. -/
theorem listEvents_sorted_by_date (db : DB) (uid sid : String) :
    List.Pairwise (fun x y : UIEvent => x.eventDate ≤ y.eventDate)
      (listEvents db uid sid) ∧
    List.Perm (listEvents db uid sid)
      ((db.events.filter
        (fun e => e.script_id == sid && e.user_id == uid)).map toUIEvent) ∧
    (listEvents db4 "u4" "s4").map UIEvent.eventDate
      = [20250101, 20250201, 20250301] := by
  refine ⟨?_, ?_, ?_⟩
  · have h := List.sorted_insertionSort eventDateLe
      (db.events.filter (fun e => e.script_id == sid && e.user_id == uid))
    exact List.Pairwise.map toUIEvent (fun a b hab => hab) h
  · exact (List.perm_insertionSort eventDateLe _).map toUIEvent
  · decide

/-- C7: `fetchSpotRate` raises an error whose text contains the HTTP
status code whenever the response is not 2xx; on a 2xx response it
resolves with the first row's rate, and with 0 when the row array is
empty. -/
theorem fetchSpotRate_spec (resp : SpotRateResponse) :
    (¬(200 ≤ resp.status ∧ resp.status < 300) →
      fetchSpotRate resp = Except.error (spotRateErrorMsg resp.status) ∧
      List.IsInfix (toString resp.status).data
        (spotRateErrorMsg resp.status).data) ∧
    (200 ≤ resp.status → resp.status < 300 →
      fetchSpotRate resp = Except.ok (resp.rows.headD 0)) ∧
    (200 ≤ resp.status → resp.status < 300 → resp.rows = [] →
      fetchSpotRate resp = Except.ok 0) ∧
    (∀ q l, 200 ≤ resp.status → resp.status < 300 → resp.rows = q :: l →
      fetchSpotRate resp = Except.ok q) := by
  have hok : respOk resp.status = true ↔
      (200 ≤ resp.status ∧ resp.status < 300) := by
    simp [respOk]
  refine ⟨?_, ?_, ?_, ?_⟩
  · intro h
    have hb : ¬ respOk resp.status = true := fun hc => h (hok.1 hc)
    refine ⟨by rw [fetchSpotRate, if_neg hb], ?_⟩
    refine ⟨("failed to fetch spot rate: " : String).data, [], ?_⟩
    show _ = _
    rw [List.append_nil]
    rfl
  · intro h1 h2
    rw [fetchSpotRate, if_pos (hok.2 ⟨h1, h2⟩)]
  · intro h1 h2 hrows
    rw [fetchSpotRate, if_pos (hok.2 ⟨h1, h2⟩), hrows]
    rfl
  · intro q l h1 h2 hrows
    rw [fetchSpotRate, if_pos (hok.2 ⟨h1, h2⟩), hrows]
    rfl

def w7Resp404 : SpotRateResponse :=
  { status := 404, rows := [] }

def w7Resp200 : SpotRateResponse :=
  { status := 200, rows := [] }

theorem fetchSpotRate_spec_witness :
    (¬(200 ≤ w7Resp404.status ∧ w7Resp404.status < 300) ∧
      200 ≤ w7Resp200.status ∧ w7Resp200.status < 300 ∧
      w7Resp200.rows = []) ∧
    fetchSpotRate w7Resp404
      = Except.error (spotRateErrorMsg w7Resp404.status) ∧
    fetchSpotRate w7Resp200 = Except.ok 0 :=
  ⟨⟨by decide, by decide, by decide, rfl⟩,
    ((fetchSpotRate_spec w7Resp404).1 (by decide)).1,
    (fetchSpotRate_spec w7Resp200).2.2.1 (by decide) (by decide) rfl⟩

/-- C8: the sign-up password validation accepts a password exactly
when it has at least 8 characters, an uppercase letter, a lowercase
letter, a digit, and a symbol of the fixed special-character set; in
particular `abc` is rejected and `Abcdefg1!` is accepted. -/
theorem validatePassword_spec (p : String) :
    (validatePassword p = true ↔
      8 ≤ p.length ∧ (∃ c ∈ p.data, isUpperAZ c) ∧
      (∃ c ∈ p.data, isLowerAZ c) ∧ (∃ c ∈ p.data, isDigit09 c) ∧
      (∃ c ∈ p.data, isSpecialChar c)) ∧
    validatePassword "abc" = false ∧
    validatePassword "Abcdefg1!" = true := by
  refine ⟨?_, by decide, by decide⟩
  unfold validatePassword
  split_ifs with h1 h2 h3 h4 h5 <;>
    simp_all [List.any_eq_true, Nat.not_lt, Nat.lt_iff_add_one_le]

/-- C9: the events-header script-name editor truncates every entered
value to its first 60 characters (the tracked name is a prefix of the
input of length `min 60 (length input)`), and in modify mode a tracked
name of length 60 renders the `60/60 characters` counter with the red
warning styling (and no counter is rendered outside modify mode). -/
theorem scriptName_cap_spec (v nm : String) (hnm : nm.length = 60) :
    (headerScriptNameChange v).length = min 60 v.length ∧
    List.IsPrefix (headerScriptNameChange v).data v.data ∧
    headerCounter nm true
      = some ("60/60 characters", "text-xs text-red-500 font-medium") ∧
    headerCounter nm false = none := by
  refine ⟨?_, ?_, ?_, ?_⟩
  · exact List.length_take 60 v.data
  · exact List.take_prefix 60 v.data
  · rw [headerCounter]
    simp only [hnm]
    rfl
  · simp [headerCounter]

def w9Name : String :=
  String.mk (List.replicate 60 'a')

theorem scriptName_cap_spec_witness :
    w9Name.length = 60 ∧
    headerCounter w9Name true
      = some ("60/60 characters", "text-xs text-red-500 font-medium") :=
  ⟨by decide, (scriptName_cap_spec "x" w9Name (by decide)).2.2.1⟩

lemma updateEvent_map_field {β : Type _} (db : DB) (uid eid : String)
    (u : EventUpdates) (fld : EventRow → β)
    (hf : ∀ e, fld (applyEventUpdates u e) = fld e) :
    (updateEvent db uid eid u).events.map fld = db.events.map fld := by
  unfold updateEvent
  simp only [List.map_map]
  refine List.map_congr_left ?_
  intro e _
  by_cases h : (e.id == eid && e.user_id == uid) = true <;>
    simp [Function.comp, h, hf]

lemma updateEvent_mem_unchanged (db : DB) (uid eid : String)
    (u : EventUpdates) (e : EventRow) (he : e ∈ db.events)
    (h : ¬(e.id = eid ∧ e.user_id = uid)) :
    e ∈ (updateEvent db uid eid u).events := by
  unfold updateEvent
  refine List.mem_map.2 ⟨e, he, ?_⟩
  have hb : (e.id == eid && e.user_id == uid) = false := by
    simp only [Bool.and_eq_false_iff, beq_eq_false_iff_ne, ne_eq]
    tauto
  simp [hb]

/-- C10: a partial event update changes only the supplied fields —
with the name, description, date, or script text left unsupplied, the
corresponding column of every row is unchanged (and the scripts table
and all non-matching event rows are untouched) — and with edit mode
off every update handler issues no mutation at all. -/
theorem updateEvent_partial_frame (db : DB) (uid eid : String)
    (nm ds : Option String) (dt : Option Nat) (sc : Option String)
    (v : String) (d : Nat) :
    ((updateEvent db uid eid
        { name := none, description := ds, eventDate := dt, script := sc
        }).events.map EventRow.name = db.events.map EventRow.name) ∧
    ((updateEvent db uid eid
        { name := nm, description := none, eventDate := dt, script := sc
        }).events.map EventRow.description
      = db.events.map EventRow.description) ∧
    ((updateEvent db uid eid
        { name := nm, description := ds, eventDate := none, script := sc
        }).events.map EventRow.event_date
      = db.events.map EventRow.event_date) ∧
    ((updateEvent db uid eid
        { name := nm, description := ds, eventDate := dt, script := none
        }).events.map EventRow.script_content
      = db.events.map EventRow.script_content) ∧
    ((updateEvent db uid eid
        { name := nm, description := ds, eventDate := dt, script := sc
        }).scripts = db.scripts) ∧
    (∀ e ∈ db.events, ¬(e.id = eid ∧ e.user_id = uid) →
      e ∈ (updateEvent db uid eid
        { name := nm, description := ds, eventDate := dt, script := sc
        }).events) ∧
    handleScriptChange false db uid eid v = db ∧
    handleDateChange false db uid eid (some d) = db ∧
    handleDateChange true db uid eid none = db ∧
    handleNameChange false db uid eid v = db ∧
    handleDescriptionChange false db uid eid v = db := by
  refine ⟨?_, ?_, ?_, ?_, rfl, ?_, rfl, rfl, rfl, rfl, rfl⟩
  · exact updateEvent_map_field db uid eid _ EventRow.name
      (fun e => by simp [applyEventUpdates])
  · exact updateEvent_map_field db uid eid _ EventRow.description
      (fun e => by simp [applyEventUpdates])
  · exact updateEvent_map_field db uid eid _ EventRow.event_date
      (fun e => by simp [applyEventUpdates])
  · exact updateEvent_map_field db uid eid _ EventRow.script_content
      (fun e => by simp [applyEventUpdates])
  · exact fun e he h => updateEvent_mem_unchanged db uid eid _ e he h

def w10Event : EventRow :=
  { id := "e9", script_id := "s9", user_id := "u9", name := "keep",
    description := "", event_date := 5, script_content := "" }

def w10DB : DB :=
  { scripts := [], events := [w10Event] }

theorem updateEvent_partial_frame_witness :
    (w10Event ∈ w10DB.events ∧ ¬(w10Event.id = "other" ∧
      w10Event.user_id = "u9")) ∧
    w10Event ∈ (updateEvent w10DB "u9" "other"
      { name := some "n", description := some "d", eventDate := some 7,
        script := some "s" }).events :=
  ⟨⟨by decide, by decide⟩,
    (updateEvent_partial_frame w10DB "u9" "other" (some "n") (some "d")
        (some 7) (some "s") "x" 3).2.2.2.2.2.1 w10Event
      (by decide) (by decide)⟩

lemma fIf_eq_left {α : Type _} [LinearOrderedField α] (a b x eps : α)
    (heps : 0 < eps) (hx : x ≤ -(eps / 2)) : fIf x a b eps = b := by
  unfold fIf
  have h1 : x + eps / 2 ≤ 0 := by linarith
  rw [min_eq_right (by linarith : x + eps / 2 ≤ eps), max_eq_left h1]
  ring

lemma fIf_eq_right {α : Type _} [LinearOrderedField α] (a b x eps : α)
    (heps : 0 < eps) (hx : eps / 2 ≤ x) : fIf x a b eps = a := by
  unfold fIf
  rw [min_eq_left (by linarith : eps ≤ x + eps / 2),
    max_eq_right (le_of_lt heps), div_mul_cancel₀ _ (ne_of_gt heps)]
  ring

lemma fIf_eq_mid {α : Type _} [LinearOrderedField α] (a b x eps : α)
    (h1 : -(eps / 2) < x) (h2 : x < eps / 2) :
    fIf x a b eps = b + (a - b) / eps * (x + eps / 2) := by
  unfold fIf
  rw [min_eq_right (by linarith : x + eps / 2 ≤ eps),
    max_eq_right (by linarith : (0 : α) ≤ x + eps / 2)]

/-- C5: the smoothing primitive `fIf(x, a, b, eps)` equals `b` for
`x ≤ -eps/2`, equals `a` for `x ≥ eps/2`, and is the linear ramp
`b + (a - b)/eps * (x + eps/2)` in between; in particular
`fIf(0, 1, 0, 1) = 1/2` and `fIf(x, 1, 0, 1) = x + 1/2` on
`-1/2 < x < 1/2`. -/
theorem fIf_ramp_spec (a b x eps : ℝ) (heps : 0 < eps) :
    (x ≤ -(eps / 2) → fIf x a b eps = b) ∧
    (eps / 2 ≤ x → fIf x a b eps = a) ∧
    (-(eps / 2) < x → x < eps / 2 →
      fIf x a b eps = b + (a - b) / eps * (x + eps / 2)) ∧
    fIf (0 : ℝ) 1 0 1 = 1 / 2 ∧
    (-(1 / 2 : ℝ) < x → x < 1 / 2 → fIf x 1 0 1 = x + 1 / 2) := by
  refine ⟨fun hx => fIf_eq_left a b x eps heps hx,
    fun hx => fIf_eq_right a b x eps heps hx,
    fun h1 h2 => fIf_eq_mid a b x eps h1 h2, ?_, ?_⟩
  · rw [fIf_eq_mid 1 0 0 1 (by norm_num) (by norm_num)]
    norm_num
  · intro h1 h2
    rw [fIf_eq_mid 1 0 x 1 (by linarith) (by linarith)]
    ring

theorem fIf_ramp_spec_witness :
    ((0 : ℝ) < 1 ∧ -(1 / 2 : ℝ) < 1 / 4 ∧ (1 / 4 : ℝ) < 1 / 2) ∧
    fIf (1 / 4 : ℝ) 1 0 1 = 1 / 4 + 1 / 2 :=
  ⟨⟨by norm_num, by norm_num, by norm_num⟩,
    (fIf_ramp_spec 1 0 (1 / 4) 1 (by norm_num)).2.2.2.2
      (by norm_num) (by norm_num)⟩

lemma hw_flat_state (a r0 s0 : ℝ) (tg W1 W2 : ℕ → ℝ) (h0 : tg 0 = 0)
    (k : ℕ) :
    hwState (hwFlatParams a r0 s0) tg W1 W2 k
      = { r := r0, s := s0 * Real.exp (r0 * tg k),
          discount := Real.exp (-(r0 * tg k)) } := by
  induction k with
  | zero =>
    simp [hwState, hwFlatParams, h0]
  | succ k ih =>
    simp only [hwState]
    rw [ih]
    simp only [hwStep, hwFlatParams, hwZ1, hwZ3]
    rw [HWState.mk.injEq]
    refine ⟨?_, ?_, ?_⟩
    · norm_num
      ring_nf
    · norm_num
      rw [mul_assoc, ← Real.exp_add]
      congr 1
      ring_nf
    · norm_num
      rw [← Real.exp_add]
      congr 1
      ring_nf

/-- C6: with `sigma_r = 0`, `sigma_s = 0`, `rho = 0`, mean reversion
`a > 0` and constant drift `theta(t) = r0`, every simulated path of
`HullWhiteGBMAgent.simulate_paths` is deterministic and independent of
the normal draws: at each grid time `t` the short rate is `r0`, the
asset is `s0 * exp(r0 * t)`, and the accumulated discount factor is
`exp(-r0 * t)`. -/
theorem hw_zero_vol_deterministic (a r0 s0 : ℝ)
    (tg W1 W2 W1' W2' : ℕ → ℝ) (k : ℕ) (ha : 0 < a) (h0 : tg 0 = 0) :
    (hwState (hwFlatParams a r0 s0) tg W1 W2 k).r = r0 ∧
    (hwState (hwFlatParams a r0 s0) tg W1 W2 k).s
      = s0 * Real.exp (r0 * tg k) ∧
    (hwState (hwFlatParams a r0 s0) tg W1 W2 k).discount
      = Real.exp (-(r0 * tg k)) ∧
    hwState (hwFlatParams a r0 s0) tg W1 W2 k
      = hwState (hwFlatParams a r0 s0) tg W1' W2' k := by
  have h1 := hw_flat_state a r0 s0 tg W1 W2 h0 k
  have h2 := hw_flat_state a r0 s0 tg W1' W2' h0 k
  exact ⟨by rw [h1], by rw [h1], by rw [h1], by rw [h1, h2]⟩

theorem hw_zero_vol_deterministic_witness :
    ((0 : ℝ) < 1 ∧ (fun _ : ℕ => (0 : ℝ)) 0 = 0) ∧
    (hwState (hwFlatParams 1 2 3) (fun _ => 0) (fun _ => 0)
      (fun _ => 0) 1).r = 2 :=
  ⟨⟨by norm_num, rfl⟩,
    (hw_zero_vol_deterministic 1 2 3 (fun _ => 0) (fun _ => 0)
      (fun _ => 0) (fun _ => 1) (fun _ => 1) 1 (by norm_num) rfl).1⟩

end DerivaLogic
